import Mathlib

set_option maxRecDepth 8000

/-!
Shallow embedding of `src/markdown.rs` (a static-site generator's document
conversion pipeline).  Strings are modelled as `List Char`; the fallible Rust
functions return `Except` or `Option`.  External collaborators (the Markdown
renderer, the HTTP client, the image decoder) are modelled as oracle fields of
an `Env` record, exactly at the granularity the source code observes them.
-/

namespace SiteGen

/-- Strings of the Rust source are embedded as lists of characters. -/
abbrev Str := List Char

/-- Coercion helper turning a Lean string literal into the embedded type. -/
def cs (s : String) : Str := s.toList

/-- Embedding of Rust `str::starts_with` for string patterns: `startsWith pat s`
is true when `pat` is an initial segment of `s`. -/
def startsWith : Str → Str → Bool
  | [], _ => true
  | _ :: _, [] => false
  | p :: ps, c :: rest => p == c && startsWith ps rest

/-- Embedding of `str::splitn(2, pat)` followed by reading both pieces: splits
`s` at the first (leftmost) occurrence of `pat`, returning the part before and
the part after the occurrence; `none` when `pat` does not occur in `s`. -/
def splitOnce (pat : Str) : Str → Option (Str × Str)
  | [] => if startsWith pat [] then some ([], ([] : Str).drop pat.length) else none
  | c :: rest =>
    if startsWith pat (c :: rest) then some ([], (c :: rest).drop pat.length)
    else (splitOnce pat rest).map (fun p => (c :: p.1, p.2))

/-- Occurrence test: `hasSub pat s` is true when `pat` occurs as a contiguous
substring of `s` (the success condition of `splitOnce`). -/
def hasSub (pat s : Str) : Bool := (splitOnce pat s).isSome

/-- Strips the literal `pat` from the front of `s`, failing when `s` does not
start with `pat`. -/
def stripLit (pat s : Str) : Option Str :=
  if startsWith pat s then some (s.drop pat.length) else none

/-- The opening front-matter delimiter `"---\n"` used by `splitn` in
`parse_post_markdown` step 1/2 (src/markdown.rs:67). -/
def delimOpen : Str := cs "---\n"

/-- The closing front-matter delimiter `"\n---\n"` used by `splitn` in
`parse_post_markdown` step 3 (src/markdown.rs:76). -/
def delimClose : Str := cs "\n---\n"

/-- Error message of src/markdown.rs:73. -/
def msgNoFrontMatter : Str := cs "Missing front matter section (--- line not found)"

/-- Error message of src/markdown.rs:82. -/
def msgNoBody : Str := cs "Missing Markdown body after front matter"

/-- Embedding of steps 1-3 of `parse_post_markdown` / `parse_page_markdown`
(src/markdown.rs:66-82): split off everything before the first `"---\n"` and
discard it, then split the remainder at the first `"\n---\n"` into the YAML
front-matter text and the Markdown body.  The `ok_or` on the first piece of the
second `splitn` (src/markdown.rs:77-79) can never fire, since `splitn` always
yields at least one piece; it is therefore not represented. -/
def extract (content : Str) : Except Str (Str × Str) :=
  match splitOnce delimOpen content with
  | none => .error msgNoFrontMatter
  | some (_, rest) =>
    match splitOnce delimClose rest with
    | none => .error msgNoBody
    | some (fmYaml, body) => .ok (fmYaml, body)

/-! ### Front-matter deserialization

Modelled from the spec: the `serde_yaml` deserialization of the two
front-matter structs is an external collaborator (the crate's code is not part
of this repository).  Per the spec's contract (§4.1): deserialization fails
when a required field is missing or type-mismatched, unknown fields are
ignored, and no validation beyond field presence/type is performed.  The model
covers the simple `key: value` mapping subset that the documents use: one
mapping entry per line, values optionally double-quoted, an entry with an
empty value denoting YAML `null` (which a `String` field rejects and an
`Option<String>` field maps to `None`). -/

/-- One YAML scalar as observed by the deserializer: a string, or null. -/
inductive YamlValue where
  | str (v : Str)
  | null
deriving DecidableEq

/-- Splits a text into its lines at `'\n'`. -/
def splitLines : Str → List Str
  | [] => [[]]
  | '\n' :: rest => [] :: splitLines rest
  | c :: rest =>
    match splitLines rest with
    | [] => [[c]]
    | l :: ls => (c :: l) :: ls

/-- Drops spaces at both ends of a line fragment. -/
def trimSpaces (s : Str) : Str :=
  ((s.dropWhile (fun c => c == ' ')).reverse.dropWhile (fun c => c == ' ')).reverse

/-- Removes one pair of surrounding double quotes, when present. -/
def stripQuotes (s : Str) : Str :=
  match s with
  | '"' :: rest =>
    if rest ≠ [] ∧ rest.getLast? = some '"' then rest.dropLast else s
  | _ => s

/-- Parses one mapping line `key: value` into a key/value pair. -/
def parseFMLine (l : Str) : Option (Str × YamlValue) :=
  match splitOnce [':'] l with
  | none => none
  | some (k, rest) =>
    if k = [] then none
    else
      let v := trimSpaces rest
      if v = [] then some (k, .null) else some (k, .str (stripQuotes v))

/-- Parses a whole front-matter block into its mapping entries; fails when a
non-blank line is not a mapping entry. -/
def parseFMBlock (block : Str) : Option (List (Str × YamlValue)) :=
  (splitLines block).foldr
    (fun l acc =>
      match acc with
      | none => none
      | some kvs =>
        if trimSpaces l = [] then some kvs
        else match parseFMLine l with
          | none => none
          | some kv => some (kv :: kvs))
    (some [])

/-- Reads a required `String` field: present string value, or failure (both a
missing key and a null value are deserialization failures for `String`). -/
def lookupStr (kvs : List (Str × YamlValue)) (k : Str) : Option Str :=
  match kvs.find? (fun p => p.1 == k) with
  | some (_, .str v) => some v
  | _ => none

/-- Embedding of the `PostFrontMatter` struct (src/markdown.rs:12-19). -/
structure PostFrontMatter where
  title : Str
  date : Str
  author : Str
  description : Option Str
  category : Option Str
deriving DecidableEq

/-- Embedding of the `PageFrontMatter` struct (src/markdown.rs:22-27). -/
structure PageFrontMatter where
  title : Str
  author : Str
  description : Option Str
deriving DecidableEq

/-- Deserialization of `PostFrontMatter` (src/markdown.rs:85): the three
required `String` fields must be present, the two `Option<String>` fields
default to `None` when absent or null. -/
def parsePostFrontMatter (block : Str) : Option PostFrontMatter :=
  match parseFMBlock block with
  | none => none
  | some kvs =>
    match lookupStr kvs (cs "title"), lookupStr kvs (cs "date"),
          lookupStr kvs (cs "author") with
    | some title, some date, some author =>
      some { title := title, date := date, author := author,
             description := lookupStr kvs (cs "description"),
             category := lookupStr kvs (cs "category") }
    | _, _, _ => none

/-- Deserialization of `PageFrontMatter` (src/markdown.rs:194). -/
def parsePageFrontMatter (block : Str) : Option PageFrontMatter :=
  match parseFMBlock block with
  | none => none
  | some kvs =>
    match lookupStr kvs (cs "title"), lookupStr kvs (cs "author") with
    | some title, some author =>
      some { title := title, author := author,
             description := lookupStr kvs (cs "description") }
    | _, _ => none

/-! ### Reading time (src/markdown.rs:97-99) -/

/-- ASCII whitespace, the subset of Rust `char::is_whitespace` (and of the
regex class `\s`) exercised by these documents; the non-ASCII Unicode
whitespace code points are not modelled. -/
def isWs (c : Char) : Bool :=
  c == ' ' || c == '\t' || c == '\n' || c == '\r' || c == '\x0b' || c == '\x0c'

/-- Word-splitting loop: `acc` holds the characters of the current word in
reverse; a whitespace character closes the current word (when nonempty). -/
def wordsAux : Str → Str → List Str
  | [], [] => []
  | [], acc => [acc.reverse]
  | c :: rest, acc =>
    if isWs c then
      if acc = [] then wordsAux rest []
      else acc.reverse :: wordsAux rest []
    else wordsAux rest (c :: acc)

/-- Embedding of `str::split_whitespace`: the maximal non-whitespace runs of
`s`, in order. -/
def wordsOf (s : Str) : List Str := wordsAux s []

/-- `markdown_body.split_whitespace().count()` (src/markdown.rs:98). -/
def wordCount (s : Str) : Nat := (wordsOf s).length

/-- Embedding of `(word_count as f64 / 200.0).ceil() as usize`
(src/markdown.rs:99).  On natural word counts below 2^53 the `f64` division
and ceiling are exact, so the value is the ceiling division `⌈wc / 200⌉`,
which is `0` when `wc = 0` (there is no minimum in the code). -/
def readingTimeOf (body : Str) : Nat := (wordCount body + 199) / 200

/-! ### Slugified destination name (src/markdown.rs:101-103)

The `slug::slugify` call is an external crate; it maps ASCII letters to
lowercase, keeps ASCII digits, turns every other character into a single `-`
separator (never doubled, never leading), and drops a trailing separator.
Non-ASCII transliteration (deunicode) is not modelled; every title in the
verified statements is ASCII. -/

/-- Lowercase ASCII letter or digit test. -/
def isLowerAlnum (c : Char) : Bool :=
  decide (('a' ≤ c ∧ c ≤ 'z') ∨ ('0' ≤ c ∧ c ≤ '9'))

/-- Uppercase ASCII letter test. -/
def isUpperAscii (c : Char) : Bool := decide ('A' ≤ c ∧ c ≤ 'Z')

/-- Lowercases an uppercase ASCII letter. -/
def lowerAscii (c : Char) : Char := Char.ofNat (c.toNat + 32)

/-- Main loop of `slug::slugify`: `atSep` records that the output is at a
separator boundary (start of string or just after an emitted `-`). -/
def slugAux : Str → Bool → Str
  | [], _ => []
  | c :: rest, atSep =>
    if isLowerAlnum c then c :: slugAux rest false
    else if isUpperAscii c then lowerAscii c :: slugAux rest false
    else if atSep then slugAux rest true
    else '-' :: slugAux rest true

/-- `slug::slugify` over ASCII input: separator-collapsing lowercase
translation with the trailing separator removed. -/
def slugify (s : Str) : Str :=
  (((slugAux s true).reverse).dropWhile (fun c => c == '-')).reverse

/-- `format!("docs/posts/{}.html", slug)` applied to the slugified title
(src/markdown.rs:102-103). -/
def postFileName (title : Str) : Str :=
  cs "docs/posts/" ++ slugify title ++ cs ".html"

/-! ### The image tag matcher (src/markdown.rs:106)

The regex `<img\s+[^>]*src="([^"]+)"\s+alt="([^"]*)".*?/?>` is embedded as a
hand-compiled backtracking matcher with the crate's leftmost-first (Perl)
match semantics.  Deterministic shortcuts are taken only where backtracking
cannot change the outcome:
* `([^"]+)"` and `([^"]*)"`: the class excludes `"`, so every shorter capture
  leaves a class character where the following literal `"` must match — the
  capture is exactly the maximal class run, followed by a mandatory `"`;
* `\s+alt="`: `'a'` is not whitespace, so the run is again maximal;
* the leading `\s+` before `[^>]*`: whitespace characters are themselves in
  `[^>]`, so collapsing `\s+` to its maximal run reaches exactly the same
  `src="` positions in the same greedy (rightmost-first) order.
The genuine choice point — which occurrence of `src="` the greedy `[^>]*`
stops at — is implemented with full backtracking (`srcLoop`). -/

/-- The two capture groups of the image regex. -/
structure Caps where
  src : Str
  alt : Str
deriving DecidableEq

/-- The tail `.*?/?>` of the image regex: a lazy dot (which cannot cross a
newline) followed by an optional `/` and a mandatory `>`; returns the text
after the consumed part.  At each position the greedy `/?` is tried first
(`/>` consumed when present), then a bare `>`, and otherwise the lazy dot
consumes one non-newline character. -/
def closeTag : Str → Option Str
  | [] => none
  | c :: r =>
    if c = '>' then some r
    else if c = '\n' then none
    else if c = '/' ∧ r.head? = some '>' then some r.tail
    else closeTag r

/-- The part `src="([^"]+)"\s+alt="([^"]*)".*?/?>` of the image regex,
anchored at the current position. -/
def afterSrc (s : Str) : Option (Caps × Str) :=
  match stripLit (cs "src=\"") s with
  | none => none
  | some s1 =>
    let cap1 := s1.takeWhile (fun c => c != '"')
    let s2 := s1.dropWhile (fun c => c != '"')
    if cap1 = [] then none
    else
      match s2 with
      | [] => none
      | d :: s3 =>
        if d = '"' then
          let w := s3.takeWhile isWs
          let s4 := s3.dropWhile isWs
          if w = [] then none
          else
            match stripLit (cs "alt=\"") s4 with
            | none => none
            | some s5 =>
              let cap2 := s5.takeWhile (fun c => c != '"')
              let s6 := s5.dropWhile (fun c => c != '"')
              match s6 with
              | [] => none
              | d2 :: s7 =>
                if d2 = '"' then
                  match closeTag s7 with
                  | none => none
                  | some s8 => some ({ src := cap1, alt := cap2 }, s8)
                else none
        else none

/-- Greedy backtracking for `[^>]*`: `tkRev` holds (reversed) the characters
currently consumed by the class, `rest` the remainder; the longest consumption
is tried first and characters are given back one at a time. -/
def srcLoop : Str → Str → Option (Caps × Str)
  | [], rest => afterSrc rest
  | c :: tk, rest =>
    match afterSrc rest with
    | some r => some r
    | none => srcLoop tk (c :: rest)

/-- Tries to match the whole image regex at the start of `s`; on success
returns the captures and the text following the match. -/
def matchImgAt (s : Str) : Option (Caps × Str) :=
  match stripLit (cs "<img") s with
  | none => none
  | some s1 =>
    let w := s1.takeWhile isWs
    let s2 := s1.dropWhile isWs
    if w = [] then none
    else
      let tk := s2.takeWhile (fun c => c != '>')
      srcLoop tk.reverse (s2.dropWhile (fun c => c != '>'))

/-- Leftmost match of the image regex in `s`: the unmatched text before the
match, the captures, and the text after the match. -/
def findImg : Str → Option (Str × Caps × Str)
  | [] => none
  | c :: rest =>
    match matchImgAt (c :: rest) with
    | some (caps, after) => some ([], caps, after)
    | none =>
      match findImg rest with
      | some (pre, caps, after) => some (c :: pre, caps, after)
      | none => none

/-! ### Image dimension resolution and the rewrite closure
(src/markdown.rs:108-152)

The file system, HTTP client and image decoder are external; they enter the
embedding as oracle fields of `Env`, at exactly the granularity the code
observes: a remote fetch either yields decoded dimensions or fails (covering
non-success status, transport error/timeout and decode failure, which the
code treats identically), and a local read either fails to open, opens but
fails to yield dimensions (`into_dimensions()` returning `Err`, which the code
maps to `(0, 0)` via `unwrap_or`), or yields dimensions. -/

/-- Outcome of `ImageReader::open` + `into_dimensions` on a local path. -/
inductive LocalImage where
  | noFile
  | badHeader
  | dims (w h : Nat)
deriving DecidableEq

/-- Outcome of the remote GET + decode (src/markdown.rs:119-132). -/
inductive RemoteFetch where
  | fail
  | ok (w h : Nat)
deriving DecidableEq

/-- Oracles for the external collaborators of one conversion run. -/
structure Env where
  render : Str → Str
  localRead : Str → LocalImage
  remote : Str → RemoteFetch

/-- Decimal rendering of a dimension, as `format!` prints a `u32`. -/
def natStr (n : Nat) : Str := (toString n).toList

/-- The replacement wrapper markup of src/markdown.rs:124-127 and 144-147. -/
def wrapper (w h : Nat) (src alt : Str) : Str :=
  cs "<div class=\x27shimmer aspect-ratio\x27 style=\x27--aspect-ratio:" ++
    natStr w ++ cs " / " ++ natStr h ++ cs "\x27><img src=\"" ++ src ++
    cs "\" alt=\"" ++ alt ++ cs "\"/></div>"

/-- Diagnostic of src/markdown.rs:134. -/
def diagRemote (src : Str) : Str :=
  cs "Could not retrieve or decode remote image \x27" ++ src ++
    cs "\x27, continuing without image"

/-- Diagnostic of src/markdown.rs:150. -/
def diagLocal (src : Str) : Str :=
  cs "Could not open local image \x27" ++ src ++
    cs "\x27, continuing without image"

/-- A pattern that starts a string is no longer than the string. -/
theorem startsWith_length_le : ∀ (pat s : Str), startsWith pat s = true → pat.length ≤ s.length
  | [], _, _ => Nat.zero_le _
  | _ :: _, [], h => by simp [startsWith] at h
  | _ :: ps, _ :: rest, h => by
    simp only [startsWith, Bool.and_eq_true] at h
    simpa using Nat.succ_le_succ (startsWith_length_le ps rest h.2)

/-- Stripping loop of `str::trim_start_matches`, with an explicit fuel bound:
stripping a nonempty pattern shortens the string, so a fuel of the string's
length is never exhausted (when it reaches zero the string is already empty
and no further strip could apply). -/
def trimAux (pat : Str) : Nat → Str → Str
  | 0, s => s
  | Nat.succ n, s =>
    if startsWith pat s then trimAux pat n (s.drop pat.length) else s

/-- Embedding of `str::trim_start_matches`: repeatedly removes the pattern
from the front of `s` as long as it is a prefix (src/markdown.rs:139). -/
def trimStartAll (pat s : Str) : Str := trimAux pat s.length s

/-- Embedding of `Path::new("docs").join(cleaned)`: an absolute component
replaces the base, otherwise the component is appended under `docs/`. -/
def joinDocs (p : Str) : Str :=
  match p with
  | '/' :: _ => p
  | _ => cs "docs/" ++ p

/-- The local path the resolver actually opens for a matched `src`
(src/markdown.rs:139-140): all leading `../` markers stripped, the remainder
joined under the output root `docs`. -/
def localPath (src : Str) : Str := joinDocs (trimStartAll (cs "../") src)

/-- The replacement closure of `replace_all` (src/markdown.rs:108-152): the
emitted replacement text for one matched image, together with the diagnostics
printed while producing it. -/
def rewriteImg (env : Env) (src alt : Str) : Str × List Str :=
  if startsWith (cs "http") src then
    match env.remote src with
    | .ok w h => (wrapper w h src alt, [])
    | .fail => ([], [diagRemote src])
  else
    match env.localRead (localPath src) with
    | .dims w h => (wrapper w h src alt, [])
    | .badHeader => (wrapper 0 0 src alt, [])
    | .noFile => ([], [diagLocal src])

/-- One-pass `Regex::replace_all` loop: repeatedly find the leftmost match,
emit the unmatched text unchanged and the closure's replacement for the match,
and continue after the match.  `fuel` only bounds the recursion; every match
consumes at least the `<img` literal, so the `length + 1` budget used below
never runs out. -/
def rewriteAllAux (env : Env) : Nat → Str → Str × List Str
  | 0, s => (s, [])
  | Nat.succ fuel, s =>
    match findImg s with
    | none => (s, [])
    | some (pre, caps, after) =>
      let rd := rewriteImg env caps.src caps.alt
      let tl := rewriteAllAux env fuel after
      (pre ++ rd.1 ++ tl.1, rd.2 ++ tl.2)

/-- `img_tag_re.replace_all(&html_output, ...)` (src/markdown.rs:108-152):
the rewritten HTML and the diagnostics printed along the way. -/
def rewriteHtml (env : Env) (s : Str) : Str × List Str :=
  rewriteAllAux env (s.length + 1) s

/-! ### Renderer adapter and the assembled pipelines -/

/-- Literal replaced by the code-block substitution (src/markdown.rs:92-95). -/
def codeOpenOld : Str := cs "<pre><code class=\"language-"

/-- Replacement literal of the code-block substitution. -/
def codeOpenNew : Str := cs "<pre class=\"line-numbers\"><code class=\"language-"

/-- `str::replace` loop: replaces every occurrence of `pat` by `rep`, left to
right, continuing after each replaced occurrence.  As in `rewriteAllAux`, the
fuel of `length + 1` is an upper bound that a nonempty `pat` never exhausts. -/
def replaceLitAux (pat rep : Str) : Nat → Str → Str
  | 0, s => s
  | Nat.succ fuel, s =>
    match splitOnce pat s with
    | none => s
    | some (pre, rest) => pre ++ rep ++ replaceLitAux pat rep fuel rest

/-- `html_output.replace(codeOpenOld, codeOpenNew)` (src/markdown.rs:92-95). -/
def replaceAllLit (pat rep s : Str) : Str := replaceLitAux pat rep (s.length + 1) s

/-- Embedding of the `Post` struct (src/markdown.rs:30-40). -/
structure Post where
  front_matter : PostFrontMatter
  content : Str
  reading_time : Nat
  file_name : Str
deriving DecidableEq

/-- Embedding of the `Page` struct (src/markdown.rs:43-49). -/
structure Page where
  front_matter : PageFrontMatter
  content : Str
deriving DecidableEq

/-- Embedding of `parse_post_markdown` (src/markdown.rs:63-160) on the raw
document text (the `fs::read_to_string` step is the caller's storage oracle
and is outside the conversion itself).  Returns the assembled `Post` together
with the image diagnostics printed during rewriting. -/
def parsePostMarkdown (env : Env) (content : Str) : Except Str (Post × List Str) :=
  match extract content with
  | .error e => .error e
  | .ok (fmYaml, body) =>
    match parsePostFrontMatter fmYaml with
    | none => .error (cs "invalid front matter")
    | some fm =>
      let html1 := replaceAllLit codeOpenOld codeOpenNew (env.render body)
      let rw := rewriteHtml env html1
      .ok ({ front_matter := fm, content := rw.1,
             reading_time := readingTimeOf body,
             file_name := postFileName fm.title }, rw.2)

/-- Embedding of `parse_page_markdown` (src/markdown.rs:172-259). -/
def parsePageMarkdown (env : Env) (content : Str) : Except Str (Page × List Str) :=
  match extract content with
  | .error e => .error e
  | .ok (fmYaml, body) =>
    match parsePageFrontMatter fmYaml with
    | none => .error (cs "invalid front matter")
    | some fm =>
      let html1 := replaceAllLit codeOpenOld codeOpenNew (env.render body)
      let rw := rewriteHtml env html1
      .ok ({ front_matter := fm, content := rw.1 }, rw.2)

/-! ### Spec-side definitions used for refinement comparisons -/

/-- Modelled from the spec: the reading-time formula the claim states,
`ceil(word_count / 200)` with a minimum of 1. -/
def specReadingTime (wc : Nat) : Nat := max 1 ((wc + 199) / 200)

/-- Modelled from the spec: stripping a single leading `../` marker, as the
claim's words describe the local-path remapping. -/
def stripOnceSpec (pat s : Str) : Str :=
  if startsWith pat s then s.drop pat.length else s

/-- Modelled from the spec: the claimed local path, obtained by stripping one
leading `../` marker and joining under the output root. -/
def specLocalPath (src : Str) : Str := joinDocs (stripOnceSpec (cs "../") src)

/-! ### Concrete fixtures used by the verified statements

The oracle environments fix the external collaborators' answers for one run:
the renderer is the identity (the rendered HTML is whatever theorems place in
the body), and the image oracles answer per scenario. -/

/-- A run whose file system holds one readable image, `docs/x.png`, of 4x3
pixels, and whose network always fails. -/
def testEnv : Env :=
  { render := id,
    localRead := fun p => if p = cs "docs/x.png" then .dims 4 3 else .noFile,
    remote := fun _ => .fail }

/-- A run where every local open fails and every remote fetch fails. -/
def envNoImg : Env :=
  { render := id, localRead := fun _ => .noFile, remote := fun _ => .fail }

/-- A run where every local file opens but no header yields dimensions. -/
def envBadHeader : Env :=
  { render := id, localRead := fun _ => .badHeader, remote := fun _ => .fail }

/-- A well-formed raw document with the given metadata block and body. -/
def mkDoc (meta body : Str) : Str := delimOpen ++ (meta ++ (delimClose ++ body))

/-- The post front-matter block of the spec's scenario. -/
def fmT : Str := cs "title: \"T\"\ndate: \"2025-01-01\"\nauthor: \"A\""

/-- The spec's scenario document. -/
def docT : Str := mkDoc fmT (cs "\nHello **world**")

/-- A document whose body carries one image tag pointing at a missing local
file. -/
def docImg : Str := mkDoc fmT (cs "<p>a</p><img src=\"../m.png\" alt=\"x\"/><p>b</p>")

/-- A body of exactly 200 whitespace-separated tokens. -/
def body200 : Str := (List.replicate 200 (cs "w ")).flatten

/-- A body of exactly 201 whitespace-separated tokens. -/
def body201 : Str := (List.replicate 201 (cs "w ")).flatten

/-- The core text consumed by a successful match from the `src="` literal on:
the `src` capture, its closing quote, the whitespace run, the `alt="` literal,
the `alt` capture, its closing quote, and the tail consumed by `.*?/?>`. -/
def imgShape (caps : Caps) (w t after : Str) : Str :=
  cs "src=\"" ++ (caps.src ++ ('"' :: (w ++ (cs "alt=\"" ++
    (caps.alt ++ ('"' :: (t ++ after)))))))

/-! ### Lemmas about the string machinery -/

/-- A string starts with itself, whatever follows. -/
theorem startsWith_append_self : ∀ (pat b : Str), startsWith pat (pat ++ b) = true
  | [], _ => rfl
  | p :: ps, b => by simp [startsWith, startsWith_append_self ps b]

/-- A string that starts with `pat` is `pat` followed by its remainder. -/
theorem startsWith_decomp : ∀ (pat s : Str), startsWith pat s = true →
    pat ++ s.drop pat.length = s
  | [], s, _ => by simp
  | _ :: _, [], h => by simp [startsWith] at h
  | p :: ps, c :: rest, h => by
    simp only [startsWith, Bool.and_eq_true, beq_iff_eq] at h
    simp [h.1, startsWith_decomp ps rest h.2]

/-- `stripLit` succeeds exactly by peeling the literal off the front. -/
theorem stripLit_eq (pat s t : Str) (h : stripLit pat s = some t) : s = pat ++ t := by
  unfold stripLit at h
  by_cases hs : startsWith pat s = true
  · rw [if_pos hs] at h
    injection h with h
    rw [← h]
    exact (startsWith_decomp pat s hs).symm
  · rw [if_neg hs] at h; cases h

/-- Splitting at the first occurrence, when the string begins with the
pattern, yields an empty first part. -/
theorem splitOnce_self (pat b : Str) : splitOnce pat (pat ++ b) = some ([], b) := by
  have hsw := startsWith_append_self pat b
  have hdrop : (pat ++ b).drop pat.length = b := List.drop_left _ _
  cases hc : pat ++ b with
  | nil =>
    obtain ⟨h1, h2⟩ := List.append_eq_nil.mp hc
    subst h1; subst h2
    rfl
  | cons c rest =>
    rw [hc] at hsw hdrop
    simp [splitOnce, hsw, hdrop]

/-- A pattern starting an append whose first part is long enough already
starts the first part. -/
theorem startsWith_of_append : ∀ (pat x y : Str), startsWith pat (x ++ y) = true →
    pat.length ≤ x.length → startsWith pat x = true
  | [], _, _, _, _ => rfl
  | _ :: _, [], _, _, hl => by simp at hl
  | p :: ps, c :: xs, y, h, hl => by
    simp only [List.cons_append, startsWith, Bool.and_eq_true] at h ⊢
    exact ⟨h.1, startsWith_of_append ps xs y h.2 (by simpa using hl)⟩

/-- A string that starts with the pattern contains it. -/
theorem hasSub_of_startsWith (pat s : Str) (h : startsWith pat s = true) :
    hasSub pat s = true := by
  cases s with
  | nil => simp [hasSub, splitOnce, h]
  | cons c rest => simp [hasSub, splitOnce, h]

/-- Unfolding one character of a negative occurrence test. -/
theorem hasSub_cons (pat : Str) (c : Char) (z : Str) (h : hasSub pat (c :: z) = false) :
    startsWith pat (c :: z) = false ∧ hasSub pat z = false := by
  by_cases hs : startsWith pat (c :: z) = true
  · rw [hasSub_of_startsWith pat (c :: z) hs] at h; cases h
  · refine ⟨by simpa using hs, ?_⟩
    simp only [hasSub, splitOnce, hs, Bool.false_eq_true, if_false,
      Option.isSome_map] at h
    simpa [hasSub] using h

/-- An explicit occurrence makes the occurrence test true. -/
theorem hasSub_append_self : ∀ (a pat b : Str), hasSub pat (a ++ (pat ++ b)) = true
  | [], pat, b => by
    simpa using hasSub_of_startsWith pat (pat ++ b) (startsWith_append_self pat b)
  | c :: a', pat, b => by
    by_cases hs : startsWith pat (c :: (a' ++ (pat ++ b))) = true
    · exact hasSub_of_startsWith _ _ (by simpa using hs)
    · have ih := hasSub_append_self a' pat b
      simp only [hasSub] at ih
      simp [hasSub, splitOnce, hs, Option.isSome_map, ih]

/-- When the metadata part contains no occurrence of the delimiter (not even
one spilling into the real delimiter's first characters), the first split at
the delimiter is the intended one.  The delimiter is passed as its leading
part `pat0` plus final character `ch`, so that the no-occurrence hypothesis
over `a ++ pat0` covers every overlap case. -/
theorem splitOnce_first (pat0 : Str) (ch : Char) : ∀ (a b : Str),
    hasSub (pat0 ++ [ch]) (a ++ pat0) = false →
    splitOnce (pat0 ++ [ch]) (a ++ ((pat0 ++ [ch]) ++ b)) = some (a, b)
  | [], b, _ => by simpa using splitOnce_self (pat0 ++ [ch]) b
  | c :: a', b, h => by
    have h' : hasSub (pat0 ++ [ch]) (c :: (a' ++ pat0)) = false := by simpa using h
    have hcons := hasSub_cons (pat0 ++ [ch]) c (a' ++ pat0) h'
    have hns : ¬ startsWith (pat0 ++ [ch]) (c :: (a' ++ ((pat0 ++ [ch]) ++ b))) = true := by
      intro hx
      have hre : c :: (a' ++ ((pat0 ++ [ch]) ++ b)) = (c :: (a' ++ pat0)) ++ (ch :: b) := by
        simp
      rw [hre] at hx
      have hlen : (pat0 ++ [ch]).length ≤ (c :: (a' ++ pat0)).length := by
        simp only [List.length_append, List.length_cons, List.length_nil]
        omega
      have h2 := startsWith_of_append _ _ _ hx hlen
      simp [hcons.1] at h2
    have ih := splitOnce_first pat0 ch a' b hcons.2
    show splitOnce (pat0 ++ [ch]) ((c :: a') ++ ((pat0 ++ [ch]) ++ b)) = some (c :: a', b)
    simp only [List.cons_append, List.append_assoc, List.singleton_append,
      List.nil_append] at hns ih ⊢
    simp [splitOnce, hns, ih]

/-! ### Lemmas about extraction -/

/-- Without any `"---\n"` in the document, extraction fails with the
missing-front-matter error of src/markdown.rs:73. -/
theorem extract_noOpen (c : Str) (h : hasSub delimOpen c = false) :
    extract c = .error msgNoFrontMatter := by
  unfold extract
  cases hx : splitOnce delimOpen c with
  | none => rfl
  | some v => rw [hasSub, hx] at h; cases h

/-- Without any `"\n---\n"` after the opening delimiter, extraction fails
with the missing-body error of src/markdown.rs:82 and produces no result. -/
theorem extract_noClose (c pre rest : Str) (h1 : splitOnce delimOpen c = some (pre, rest))
    (h2 : hasSub delimClose rest = false) : extract c = .error msgNoBody := by
  unfold extract
  split
  · rename_i heq; rw [h1] at heq; cases heq
  · rename_i fst rest1 heq
    rw [h1] at heq
    injection heq with heq
    injection heq with ha hb
    subst ha; subst hb
    split
    · rfl
    · rename_i fmY bdy heq2
      unfold hasSub at h2
      rw [heq2] at h2
      simp at h2

/-- On a well-formed document whose metadata block contains no closing
delimiter line, extraction recovers the metadata text and the body
byte-identically. -/
theorem extract_wellFormed (meta body : Str)
    (h : hasSub delimClose (meta ++ cs "\n---") = false) :
    extract (delimOpen ++ (meta ++ (delimClose ++ body))) = .ok (meta, body) := by
  have h1 : splitOnce delimOpen (delimOpen ++ (meta ++ (delimClose ++ body))) =
      some ([], meta ++ (delimClose ++ body)) := splitOnce_self _ _
  have h8 : splitOnce delimClose (meta ++ (delimClose ++ body)) = some (meta, body) := by
    have hd : delimClose = cs "\n---" ++ ['\n'] := by decide
    rw [hd]
    exact splitOnce_first (cs "\n---") '\n' meta body (by rw [← hd]; exact h)
  unfold extract
  split
  · rename_i heq; rw [h1] at heq; cases heq
  · rename_i fst rest1 heq
    rw [h1] at heq
    injection heq with heq
    injection heq with ha hb
    subst ha; subst hb
    split
    · rename_i heq2; rw [h8] at heq2; cases heq2
    · rename_i fmY bdy heq2
      rw [h8] at heq2
      injection heq2 with heq2
      injection heq2 with ha hb
      subst ha; subst hb
      rfl

/-! ### Lemmas about the image matcher -/

/-- `closeTag` consumes an initial segment. -/
theorem closeTag_split : ∀ (t rest : Str), closeTag t = some rest → ∃ m, t = m ++ rest
  | [], _, h => nomatch h
  | c :: r, rest, h => by
    simp only [closeTag] at h
    by_cases h1 : c = '>'
    · rw [if_pos h1] at h
      injection h with h
      exact ⟨[c], by simp [h]⟩
    · rw [if_neg h1] at h
      by_cases h2 : c = '\n'
      · rw [if_pos h2] at h; cases h
      · rw [if_neg h2] at h
        by_cases h3 : c = '/' ∧ r.head? = some '>'
        · rw [if_pos h3] at h
          injection h with h
          obtain ⟨hc, hh⟩ := h3
          subst hc
          cases r with
          | nil => cases hh
          | cons c2 r2 =>
            have hh2 : c2 = '>' := by simpa using hh
            have h' : r2 = rest := by simpa using h
            exact ⟨['/', '>'], by simp [hh2, h']⟩
        · rw [if_neg h3] at h
          obtain ⟨m, hm⟩ := closeTag_split r rest h
          exact ⟨c :: m, by simp [hm]⟩

/-- A successful `afterSrc` yields a nonempty `src` capture and decomposes its
input into the matched core shape. -/
theorem afterSrc_shape (r : Str) (caps : Caps) (after : Str)
    (h : afterSrc r = some (caps, after)) :
    caps.src ≠ [] ∧ ∃ w t, r = imgShape caps w t after := by
  unfold afterSrc at h
  split at h
  · cases h
  · rename_i s1 hs
    dsimp only at h
    split at h
    · cases h
    · rename_i hcap
      split at h
      · cases h
      · rename_i d s3 hs2
        split at h
        · rename_i hd
          split at h
          · cases h
          · rename_i hw
            split at h
            · cases h
            · rename_i s5 halt
              split at h
              · cases h
              · rename_i d2 s7 hs6
                split at h
                · rename_i hd2
                  split at h
                  · cases h
                  · rename_i s8 hclose
                    obtain ⟨m, hm⟩ := closeTag_split s7 s8 hclose
                    injection h with h
                    injection h with h1 h2
                    subst h2; subst h1; subst hd; subst hd2
                    refine ⟨by simpa using hcap, s3.takeWhile isWs, m, ?_⟩
                    have e5 : s5 = s5.takeWhile (fun c => c != '"') ++
                        ('"' :: (m ++ s8)) := by
                      conv_lhs => rw [← List.takeWhile_append_dropWhile
                        (fun c => c != '"') s5]
                      rw [hs6, hm]
                    have e3 : s3 = s3.takeWhile isWs ++
                        (cs "alt=\"" ++ s5) := by
                      conv_lhs => rw [← List.takeWhile_append_dropWhile isWs s3]
                      rw [stripLit_eq _ _ _ halt]
                    have e1 : s1 = s1.takeWhile (fun c => c != '"') ++
                        ('"' :: s3) := by
                      conv_lhs => rw [← List.takeWhile_append_dropWhile
                        (fun c => c != '"') s1]
                      rw [hs2]
                    conv_lhs => rw [stripLit_eq _ _ _ hs, e1, e3, e5]
                    rfl
                · cases h
        · cases h

/-- `srcLoop` only succeeds on inputs containing the matched core shape, with
a nonempty `src` capture. -/
theorem srcLoop_shape : ∀ (tkRev rest : Str) (caps : Caps) (after : Str),
    srcLoop tkRev rest = some (caps, after) →
    caps.src ≠ [] ∧ ∃ g w t, tkRev.reverse ++ rest = g ++ imgShape caps w t after
  | [], rest, caps, after, h => by
    obtain ⟨hne, w, t, hshape⟩ := afterSrc_shape rest caps after h
    exact ⟨hne, [], w, t, by simpa using hshape⟩
  | c :: tk, rest, caps, after, h => by
    simp only [srcLoop] at h
    split at h
    · rename_i r0 ha
      injection h with h
      subst h
      obtain ⟨hne, w, t, hshape⟩ := afterSrc_shape rest caps after ha
      exact ⟨hne, (c :: tk).reverse, w, t, by rw [hshape]⟩
    · rename_i ha
      obtain ⟨hne, g, w, t, hshape⟩ := srcLoop_shape tk (c :: rest) caps after h
      refine ⟨hne, g, w, t, ?_⟩
      rw [← hshape]
      simp

/-- A successful match at a position decomposes the text there into a prefix
and the matched core shape, with a nonempty `src` capture. -/
theorem matchImgAt_shape (s : Str) (caps : Caps) (after : Str)
    (h : matchImgAt s = some (caps, after)) :
    caps.src ≠ [] ∧ ∃ g w t, s = g ++ imgShape caps w t after := by
  unfold matchImgAt at h
  split at h
  · cases h
  · rename_i s1 hs
    dsimp only at h
    split at h
    · cases h
    · rename_i hw
      obtain ⟨hne, g, w, t, hshape⟩ :=
        srcLoop_shape ((s1.dropWhile isWs).takeWhile (fun c => c != '>')).reverse
          ((s1.dropWhile isWs).dropWhile (fun c => c != '>')) caps after h
      rw [List.reverse_reverse, List.takeWhile_append_dropWhile] at hshape
      refine ⟨hne, cs "<img" ++ (s1.takeWhile isWs ++ g), w, t, ?_⟩
      rw [stripLit_eq _ _ _ hs]
      conv_lhs => rw [← List.takeWhile_append_dropWhile isWs s1]
      rw [hshape]
      simp

/-- A successful `findImg` splits the text into the unmatched head, the
matched core shape (preceded by the in-match prefix `g`), and the tail, and
its `src` capture is nonempty. -/
theorem findImg_shape : ∀ (s pre : Str) (caps : Caps) (after : Str),
    findImg s = some (pre, caps, after) →
    caps.src ≠ [] ∧ ∃ g w t, s = pre ++ (g ++ imgShape caps w t after)
  | [], pre, caps, after, h => by simp [findImg] at h
  | c :: rest, pre, caps, after, h => by
    unfold findImg at h
    split at h
    · rename_i caps1 after1 hm
      injection h with h
      injection h with h1 h
      injection h with h2 h3
      subst h1; subst h2; subst h3
      obtain ⟨hne, g, w, t, hshape⟩ := matchImgAt_shape _ _ _ hm
      exact ⟨hne, g, w, t, by simpa using hshape⟩
    · rename_i hm
      split at h
      · rename_i pre1 caps1 after1 hf
        injection h with h
        injection h with h1 h
        injection h with h2 h3
        subst h1; subst h2; subst h3
        obtain ⟨hne, g, w, t, hshape⟩ := findImg_shape rest pre1 _ _ hf
        exact ⟨hne, g, w, t, by simp [hshape]⟩
      · cases h

/-! ### Lemmas about path trimming -/

/-- Any fuel at least the string's length gives `trimAux` its fixpoint
value: the bound in `trimStartAll` is immaterial. -/
theorem trimAux_ge (pat : Str) (hne : pat ≠ []) : ∀ (n : Nat) (s : Str),
    s.length ≤ n → trimAux pat n s = trimAux pat s.length s := by
  intro n
  induction n using Nat.strong_induction_on with
  | _ n ih =>
    intro s hs
    match n with
    | 0 =>
      have h0 : s.length = 0 := Nat.le_zero.mp hs
      rw [h0]
    | Nat.succ n =>
      by_cases hsw : startsWith pat s = true
      · have hp1 : 1 ≤ pat.length := by
          cases pat with
          | nil => exact absurd rfl hne
          | cons p ps => simp
        have hs1 : 1 ≤ s.length := le_trans hp1 (startsWith_length_le pat s hsw)
        obtain ⟨k, hk⟩ : ∃ k, s.length = k + 1 := ⟨s.length - 1, by omega⟩
        have hd : (s.drop pat.length).length = s.length - pat.length :=
          List.length_drop _ _
        rw [hk]
        simp only [trimAux, hsw, if_true]
        rw [ih n (by omega) (s.drop pat.length) (by omega),
          ih k (by omega) (s.drop pat.length) (by omega)]
      · have hsw' : startsWith pat s = false := by simpa using hsw
        cases hsl : s.length with
        | zero => simp only [trimAux, hsw', Bool.false_eq_true, if_false]
        | succ k => simp only [trimAux, hsw', Bool.false_eq_true, if_false]

/-- `trim_start_matches` removes a leading occurrence of the pattern. -/
theorem trimStartAll_strip (pat s : Str) (hne : pat ≠ []) :
    trimStartAll pat (pat ++ s) = trimStartAll pat s := by
  unfold trimStartAll
  have h1 : startsWith pat (pat ++ s) = true := startsWith_append_self pat s
  have hp1 : 1 ≤ pat.length := by
    cases pat with
    | nil => exact absurd rfl hne
    | cons p ps => simp
  obtain ⟨k, hk⟩ : ∃ k, (pat ++ s).length = k + 1 :=
    ⟨(pat ++ s).length - 1, by simp; omega⟩
  rw [hk]
  simp only [trimAux, h1, if_true]
  rw [List.drop_left]
  have hsk : s.length ≤ k := by
    have := hk
    simp only [List.length_append] at this
    omega
  exact trimAux_ge pat hne k s hsk

/-- The resolver path is invariant under adding a leading `../` marker: the
code strips all leading occurrences, not just one. -/
theorem localPath_strip (s : Str) : localPath (cs "../" ++ s) = localPath s := by
  unfold localPath
  rw [trimStartAll_strip (cs "../") s (by decide)]

/-! ### Occurrence consequences of a match -/

/-- Every text in which the image regex finds a match contains both the
`src="` and the `alt="` attribute openers. -/
theorem findImg_attrs (s pre : Str) (caps : Caps) (after : Str)
    (h : findImg s = some (pre, caps, after)) :
    hasSub (cs "src=\"") s = true ∧ hasSub (cs "alt=\"") s = true := by
  obtain ⟨hne, g, w, t, hshape⟩ := findImg_shape s pre caps after h
  constructor
  · rw [hshape]
    unfold imgShape
    have hx := hasSub_append_self (pre ++ g) (cs "src=\"")
      (caps.src ++ ('"' :: (w ++ (cs "alt=\"" ++ (caps.alt ++ ('"' :: (t ++ after)))))))
    simpa [List.append_assoc] using hx
  · rw [hshape]
    unfold imgShape
    have hx := hasSub_append_self
      (pre ++ (g ++ (cs "src=\"" ++ (caps.src ++ ('"' :: w))))) (cs "alt=\"")
      (caps.alt ++ ('"' :: (t ++ after)))
    simpa [List.append_assoc, List.cons_append] using hx

/-! ### The verified claims -/

/-- One expected conversion result: `docImg` converted under `envNoImg`. -/
def postImg : Post :=
  { front_matter :=
      { title := cs "T"
        date := cs "2025-01-01"
        author := cs "A"
        description := none
        category := none }
    content := cs "<p>a</p><p>b</p>"
    reading_time := 1
    file_name := cs "docs/posts/t.html" }

/-- Claim C1, counterexample: the pipeline's reading time for a body of 0
whitespace-separated tokens is 0, not the 1 demanded by the minimum-of-one
formula `specReadingTime`. -/
theorem c1_counterexample :
    (parsePostMarkdown envNoImg (mkDoc fmT [])).toOption.map
      (fun p => p.1.reading_time) = some 0 ∧
    specReadingTime (wordCount []) = 1 := by
  constructor
  · decide
  · decide

/-- Claim C1 (amended): the computed reading time is the ceiling of
`word_count / 200` with no minimum; a 200-token body yields 1, a 201-token
body yields 2, and a 0-token body yields 0. -/
theorem c1_reading_time :
    (∀ body : Str, readingTimeOf body = (wordCount body + 199) / 200) ∧
    wordCount body200 = 200 ∧
    (parsePostMarkdown envNoImg (mkDoc fmT body200)).toOption.map
      (fun p => p.1.reading_time) = some 1 ∧
    wordCount body201 = 201 ∧
    (parsePostMarkdown envNoImg (mkDoc fmT body201)).toOption.map
      (fun p => p.1.reading_time) = some 2 ∧
    wordCount ([] : Str) = 0 ∧
    (parsePostMarkdown envNoImg (mkDoc fmT [])).toOption.map
      (fun p => p.1.reading_time) = some 0 :=
  ⟨fun _ => rfl, by decide, by decide, by decide, by decide, by decide, by decide⟩

/-- Claim C2, counterexample: a metadata block whose `title` is the empty
string deserializes successfully with `title = ""` — the non-emptiness
invariant does not hold after parsing. -/
theorem c2_counterexample :
    parsePostFrontMatter (cs "title: \"\"\ndate: \"2025-01-01\"\nauthor: \"A\"") =
      some { title := [], date := cs "2025-01-01", author := cs "A",
             description := none, category := none } := by decide

/-- Claim C2 (amended): a metadata block missing a required field fails to
deserialize (no default is supplied), for all required fields of both the
post and the page variant; the values themselves may be empty strings. -/
theorem c2_required_fields :
    (∀ (block : Str) (kvs : List (Str × YamlValue)), parseFMBlock block = some kvs →
      lookupStr kvs (cs "title") = none → parsePostFrontMatter block = none) ∧
    (∀ (block : Str) (kvs : List (Str × YamlValue)), parseFMBlock block = some kvs →
      lookupStr kvs (cs "date") = none → parsePostFrontMatter block = none) ∧
    (∀ (block : Str) (kvs : List (Str × YamlValue)), parseFMBlock block = some kvs →
      lookupStr kvs (cs "author") = none → parsePostFrontMatter block = none) ∧
    (∀ (block : Str) (kvs : List (Str × YamlValue)), parseFMBlock block = some kvs →
      lookupStr kvs (cs "title") = none → parsePageFrontMatter block = none) ∧
    (∀ (block : Str) (kvs : List (Str × YamlValue)), parseFMBlock block = some kvs →
      lookupStr kvs (cs "author") = none → parsePageFrontMatter block = none) := by
  refine ⟨?_, ?_, ?_, ?_, ?_⟩ <;>
    (intro block kvs hb hl
     cases ht : lookupStr kvs (cs "title") <;>
       cases hd : lookupStr kvs (cs "date") <;>
         cases ha : lookupStr kvs (cs "author") <;>
           simp_all [parsePostFrontMatter, parsePageFrontMatter])

/-- Claim C2 witness: concrete blocks missing `title` (post) and `author`
(page) fail to deserialize. -/
theorem c2_required_fields_witness :
    parsePostFrontMatter (cs "date: \"d\"\nauthor: \"A\"") = none ∧
    parsePageFrontMatter (cs "title: \"t\"") = none :=
  ⟨c2_required_fields.1 _ [(cs "date", .str (cs "d")), (cs "author", .str (cs "A"))]
    (by decide) (by decide),
   c2_required_fields.2.2.2.2 _ [(cs "title", .str (cs "t"))] (by decide) (by decide)⟩

/-- Claim C3, counterexample: a document that does not begin with a delimiter
line — arbitrary text precedes the first `---` — is still accepted by
extraction, which splits at the first occurrence of `"---\n"` anywhere. -/
theorem c3_counterexample :
    startsWith delimOpen (cs "junk---\na: b\n---\nx") = false ∧
    extract (cs "junk---\na: b\n---\nx") = .ok (cs "a: b", cs "x") :=
  ⟨by decide, by rfl⟩

/-- Claim C3 (amended): extraction fails with the missing-front-matter error
exactly when no `"---\n"` occurs in the document, and with the missing-body
error when no `"\n---\n"` follows the first `"---\n"`; a missing closing
delimiter thus aborts with an error and no partial result is produced. -/
theorem c3_structure :
    (∀ c : Str, hasSub delimOpen c = false → extract c = .error msgNoFrontMatter) ∧
    (∀ (c pre rest : Str), splitOnce delimOpen c = some (pre, rest) →
      hasSub delimClose rest = false → extract c = .error msgNoBody) :=
  ⟨extract_noOpen, extract_noClose⟩

/-- Claim C3 witness: concrete documents hitting both failure modes. -/
theorem c3_structure_witness :
    extract (cs "no front matter here") = .error msgNoFrontMatter ∧
    extract (cs "---\ntitle: \"T\"") = .error msgNoBody :=
  ⟨c3_structure.1 _ (by decide),
   c3_structure.2 _ [] (cs "title: \"T\"") (by decide) (by decide)⟩

/-- Claim C4 (confirmed): for a well-formed document — opening delimiter
line, metadata block containing no closing-delimiter line, closing delimiter
line, body — whose metadata deserializes, extraction succeeds and returns the
body byte-identically (it is the exact substring following the second
delimiter), and deserialization of the recovered metadata succeeds. -/
theorem c4_roundtrip (meta body : Str) (fm : PostFrontMatter)
    (hmeta : hasSub delimClose (meta ++ cs "\n---") = false)
    (hfm : parsePostFrontMatter meta = some fm) :
    extract (mkDoc meta body) = .ok (meta, body) ∧
    parsePostFrontMatter meta = some fm :=
  ⟨extract_wellFormed meta body hmeta, hfm⟩

/-- Claim C4 witness: the round trip on a concrete well-formed document. -/
theorem c4_roundtrip_witness :
    extract (mkDoc fmT (cs "\nHello world")) = .ok (fmT, cs "\nHello world") ∧
    parsePostFrontMatter fmT = some ⟨cs "T", cs "2025-01-01", cs "A", none, none⟩ :=
  c4_roundtrip fmT (cs "\nHello world") ⟨cs "T", cs "2025-01-01", cs "A", none, none⟩
    (by decide) (by decide)

/-- Claim C5, counterexample: an `<img>` tag that carries a `src` attribute
followed by an `alt` attribute — with another attribute between them — is not
matched and passes through the rewriter unmodified, although the claim's
matching rule (`src` then `alt`, arbitrary other attributes around them)
covers it. -/
theorem c5_counterexample :
    rewriteHtml testEnv (cs "<img src=\"a\" x=\"1\" alt=\"b\">") =
      (cs "<img src=\"a\" x=\"1\" alt=\"b\">", []) ∧
    hasSub (cs "src=\"") (cs "<img src=\"a\" x=\"1\" alt=\"b\">") = true ∧
    hasSub (cs "alt=\"") (cs "<img src=\"a\" x=\"1\" alt=\"b\">") = true := by
  refine ⟨by decide, by decide, by decide⟩

/-- Claim C5 (amended): the matcher requires `src="…"` to be followed, after
whitespace only, by `alt="…"`; other attributes are allowed before `src` and
after `alt`, with an optional self-closing slash, and a tag missing `src` or
missing `alt` is not matched and passes through unmodified; every text in
which a match is found does carry both attribute openers. -/
theorem c5_matcher :
    rewriteHtml testEnv
        (cs "<p>a</p><img class=\"big\"  src=\"x.png\"   alt=\"an x\"/><p>b</p>") =
      (cs "<p>a</p>" ++ wrapper 4 3 (cs "x.png") (cs "an x") ++ cs "<p>b</p>", []) ∧
    rewriteHtml testEnv (cs "<img alt=\"b\">") = (cs "<img alt=\"b\">", []) ∧
    rewriteHtml testEnv (cs "<img src=\"x.png\">") = (cs "<img src=\"x.png\">", []) ∧
    (∀ (s pre : Str) (caps : Caps) (after : Str),
      findImg s = some (pre, caps, after) →
      hasSub (cs "src=\"") s = true ∧ hasSub (cs "alt=\"") s = true) :=
  ⟨by decide, by decide, by decide, findImg_attrs⟩

/-- Claim C5 witness: the occurrence consequence at a concrete match. -/
theorem c5_matcher_witness :
    hasSub (cs "src=\"") (cs "<img src=\"a\" alt=\"b\">") = true ∧
    hasSub (cs "alt=\"") (cs "<img src=\"a\" alt=\"b\">") = true :=
  c5_matcher.2.2.2 _ [] { src := cs "a", alt := cs "b" } [] (by decide)

/-- Claim C6 (confirmed): when resolution fails for a matched image — any
remote failure, or a local file that does not open — the rewriter replaces
the tag with the empty string and emits a diagnostic naming the source; on a
whole document the conversion still succeeds with the surrounding HTML
unchanged and no error propagates. -/
theorem c6_failure_containment :
    (∀ (env : Env) (src alt : Str), startsWith (cs "http") src = true →
      env.remote src = .fail →
      rewriteImg env src alt = ([], [diagRemote src]) ∧
      hasSub src (diagRemote src) = true) ∧
    (∀ (env : Env) (src alt : Str), startsWith (cs "http") src = false →
      env.localRead (localPath src) = .noFile →
      rewriteImg env src alt = ([], [diagLocal src]) ∧
      hasSub src (diagLocal src) = true) ∧
    (parsePostMarkdown envNoImg docImg).toOption =
      some (postImg, [diagLocal (cs "../m.png")]) := by
  refine ⟨?_, ?_, by decide⟩
  · intro env src alt hh hr
    constructor
    · simp [rewriteImg, hh, hr]
    · unfold diagRemote
      rw [List.append_assoc]
      exact hasSub_append_self _ src _
  · intro env src alt hh hl
    constructor
    · simp [rewriteImg, hh, hl]
    · unfold diagLocal
      rw [List.append_assoc]
      exact hasSub_append_self _ src _

/-- Claim C6 witness: both failure modes at concrete sources. -/
theorem c6_failure_containment_witness :
    rewriteImg envNoImg (cs "http://a/b.png") (cs "x") =
      ([], [diagRemote (cs "http://a/b.png")]) ∧
    rewriteImg envNoImg (cs "../m.png") (cs "x") = ([], [diagLocal (cs "../m.png")]) :=
  ⟨(c6_failure_containment.1 envNoImg (cs "http://a/b.png") (cs "x")
      (by decide) (by decide)).1,
   (c6_failure_containment.2.1 envNoImg (cs "../m.png") (cs "x")
      (by decide) (by decide)).1⟩

/-- Claim C7, counterexample: a local image file that opens but whose header
yields no dimensions is not treated as unresolvable — the rewriter emits a
wrapper carrying width 0 and height 0 instead of omitting the image. -/
theorem c7_counterexample :
    rewriteHtml envBadHeader (cs "<img src=\"x.png\" alt=\"a\"/>") =
      (wrapper 0 0 (cs "x.png") (cs "a"), []) ∧
    wrapper 0 0 (cs "x.png") (cs "a") ≠ [] := by
  refine ⟨by decide, by decide⟩

/-- Claim C7 (amended): the wrapper's dimensions are exactly the resolver's
output (no positivity is enforced): resolved local or remote dimensions are
emitted as given, a local file that opens with an unreadable header yields a
wrapper with width = height = 0, and only a file that fails to open omits
the image. -/
theorem c7_dimensions :
    (∀ (env : Env) (src alt : Str) (w h : Nat), startsWith (cs "http") src = false →
      env.localRead (localPath src) = .dims w h →
      rewriteImg env src alt = (wrapper w h src alt, [])) ∧
    (∀ (env : Env) (src alt : Str) (w h : Nat), startsWith (cs "http") src = true →
      env.remote src = .ok w h →
      rewriteImg env src alt = (wrapper w h src alt, [])) ∧
    (∀ (env : Env) (src alt : Str), startsWith (cs "http") src = false →
      env.localRead (localPath src) = .badHeader →
      rewriteImg env src alt = (wrapper 0 0 src alt, [])) ∧
    (∀ (env : Env) (src alt : Str), startsWith (cs "http") src = false →
      env.localRead (localPath src) = .noFile →
      rewriteImg env src alt = ([], [diagLocal src])) := by
  refine ⟨?_, ?_, ?_, ?_⟩
  · intro env src alt w h hh hl
    simp [rewriteImg, hh, hl]
  · intro env src alt w h hh hr
    simp [rewriteImg, hh, hr]
  · intro env src alt hh hl
    simp [rewriteImg, hh, hl]
  · intro env src alt hh hl
    simp [rewriteImg, hh, hl]

/-- Claim C7 witness: resolved and degenerate emissions at concrete inputs. -/
theorem c7_dimensions_witness :
    rewriteImg testEnv (cs "x.png") (cs "a") = (wrapper 4 3 (cs "x.png") (cs "a"), []) ∧
    rewriteImg envBadHeader (cs "y.png") (cs "a") =
      (wrapper 0 0 (cs "y.png") (cs "a"), []) :=
  ⟨c7_dimensions.1 testEnv (cs "x.png") (cs "a") 4 3 (by decide) (by decide),
   c7_dimensions.2.2.1 envBadHeader (cs "y.png") (cs "a") (by decide) (by decide)⟩

/-- Claim C8 (confirmed): the destination name is a pure function of the
title — the slugified title in the fixed template `docs/posts/{slug}.html`;
title `"T"` yields `docs/posts/t.html`, and equal titles yield equal
destination names. -/
theorem c8_destination :
    (∀ t : Str, postFileName t = cs "docs/posts/" ++ slugify t ++ cs ".html") ∧
    postFileName (cs "T") = cs "docs/posts/t.html" ∧
    slugify (cs "My First Post!") = cs "my-first-post" ∧
    (∀ t1 t2 : Str, t1 = t2 → postFileName t1 = postFileName t2) ∧
    (parsePostMarkdown envNoImg docT).toOption.map (fun p => p.1.file_name) =
      some (cs "docs/posts/t.html") :=
  ⟨fun _ => rfl, by decide, by decide, fun _ _ h => by rw [h], by decide⟩

/-- Claim C8 witness: the determinism conjunct applied at a concrete title. -/
theorem c8_destination_witness : postFileName (cs "T") = postFileName (cs "T") :=
  c8_destination.2.2.2.1 (cs "T") (cs "T") rfl

/-- Claim C9, counterexample: for `src = "../../a.png"` the resolver opens
`docs/a.png` — all leading `../` markers are stripped — while stripping a
single leading marker, as the claim states, would give `docs/../a.png`. -/
theorem c9_counterexample :
    localPath (cs "../../a.png") = cs "docs/a.png" ∧
    specLocalPath (cs "../../a.png") = cs "docs/../a.png" ∧
    localPath (cs "../../a.png") ≠ specLocalPath (cs "../../a.png") := by
  refine ⟨by decide, by decide, by decide⟩

/-- Claim C9 (amended): the resolver strips all leading `../` markers from a
local `src` and joins the remainder under `docs`, while the emitted wrapper
keeps the original, unstripped `src`. -/
theorem c9_local_path :
    (∀ s : Str, localPath (cs "../" ++ s) = localPath s) ∧
    (∀ (env : Env) (src alt : Str) (w h : Nat), startsWith (cs "http") src = false →
      env.localRead (localPath src) = .dims w h →
      rewriteImg env src alt = (wrapper w h src alt, [])) ∧
    localPath (cs "../../a.png") = cs "docs/a.png" ∧
    localPath (cs "../img/b.png") = cs "docs/img/b.png" := by
  refine ⟨localPath_strip, ?_, by decide, by decide⟩
  intro env src alt w h hh hl
  simp [rewriteImg, hh, hl]

/-- Claim C9 witness: a `../`-prefixed source resolves under `docs` yet the
wrapper keeps the original value. -/
theorem c9_local_path_witness :
    localPath (cs "../" ++ cs "x.png") = localPath (cs "x.png") ∧
    rewriteImg testEnv (cs "../x.png") (cs "a") =
      (wrapper 4 3 (cs "../x.png") (cs "a"), []) :=
  ⟨c9_local_path.1 (cs "x.png"),
   c9_local_path.2.1 testEnv (cs "../x.png") (cs "a") 4 3 (by decide) (by decide)⟩

/-- Claim C10 (confirmed): a match's `src` capture is never empty — an
`<img>` with `src=""` passes through unchanged — while an empty `alt` value
is matched and rewritten like any other. -/
theorem c10_empty_values :
    (∀ (s pre : Str) (caps : Caps) (after : Str),
      findImg s = some (pre, caps, after) → caps.src ≠ []) ∧
    rewriteHtml testEnv (cs "<p><img src=\"\" alt=\"b\"></p>") =
      (cs "<p><img src=\"\" alt=\"b\"></p>", []) ∧
    rewriteHtml testEnv (cs "<img src=\"x.png\" alt=\"\"/>") =
      (wrapper 4 3 (cs "x.png") [], []) := by
  refine ⟨?_, by decide, by decide⟩
  intro s pre caps after h
  exact (findImg_shape s pre caps after h).1

/-- Claim C10 witness: the nonemptiness conjunct at a concrete match. -/
theorem c10_empty_values_witness : (cs "a" : Str) ≠ [] :=
  c10_empty_values.1 (cs "<img src=\"a\" alt=\"b\">") [] { src := cs "a", alt := cs "b" } []
    (by decide)

end SiteGen
